import Mathlib

/-!
# Verification of `meow.py`

A shallow embedding of the `meow` CLI chat client (`src/meow.py`) and proofs
of its specified properties.

The embedding models:

* the Python string operations the script uses (`str.split("\n")`,
  `str.startswith`, `str.strip`, indexing, slicing) as executable functions
  over the character list of a `String`;
* `extract_code_blocks`, the fenced-code-block scanner;
* the `MeowChat` session state (current model, conversation history), its
  commands (`command_model`, `command_copy`, `command_code_copy`,
  `command_dump`, `command_reset`, `command_quit`, `command_help`), the
  reflective command registry `get_commands` / `run_command`, and one
  iteration of the `chat` read-eval-print loop.

Side effects (console printing, clipboard, process exit) are modelled as an
explicit list of emitted effects; the streamed completion is modelled as the
list of `delta.content` fields of its chunks (`none` models a null delta).
Exceptions that the Python code does not catch (only `KeyboardInterrupt` is
caught in the loop) are modelled by an explicit `uncaught` outcome /
`Option` result.
-/

/-! ## Python string primitives, modelled over character lists -/

/-- Python `s.split("\n")`: split on every newline, keeping empty pieces
(`"".split("\n") == [""]`). -/
def pySplitLines (s : String) : List String :=
  (s.data.splitOn '\n').map fun cs => ⟨cs⟩

/-- Python `s.startswith(p)`. -/
def pyStartsWith (s p : String) : Bool :=
  p.data.isPrefixOf s.data

/-- Python `s.strip()`: remove leading and trailing whitespace. -/
def pyStrip (s : String) : String :=
  ⟨((s.data.dropWhile Char.isWhitespace).reverse.dropWhile Char.isWhitespace).reverse⟩

/-- Python `s[0]`: the first character, or `none` when the string is empty
(where Python raises `IndexError`). -/
def pyFirst (s : String) : Option Char :=
  s.data.head?

/-- Python `s[1:]`: everything after the first character. -/
def pyDropFirst (s : String) : String :=
  ⟨s.data.drop 1⟩

/-! ## The model allow-list -/

/-- `MODELS = ["gpt-4o", "gpt-4-turbo"]` (module level in `meow.py`). -/
def MODELS : List String := ["gpt-4o", "gpt-4-turbo"]

/-! ## `extract_code_blocks` -/

/-- The loop body of `extract_code_blocks`: `current` is `none` outside a
block and `some acc` inside one; closed blocks are appended to `output`. -/
def extractCodeBlocksAux : List String → Option String → List String → List String
  | [], _, output => output
  | line :: rest, none, output =>
      if pyStartsWith line "```" then
        extractCodeBlocksAux rest (some "") output
      else
        extractCodeBlocksAux rest none output
  | line :: rest, some current, output =>
      if line = "```" then
        extractCodeBlocksAux rest none (output ++ [current])
      else
        extractCodeBlocksAux rest (some (current ++ line ++ "\n")) output

/-- `extract_code_blocks(s)`: find all the fenced code blocks in the
markdown string `s`. -/
def extract_code_blocks (s : String) : List String :=
  extractCodeBlocksAux (pySplitLines s) none []

/-! ## Structural characterisation of well-formed inputs

A document is a sequence of segments: plain text lines outside any block,
and fenced blocks (an opening fence line starting with ```` ``` ````, body
lines, and the bare ```` ``` ```` closing fence). -/

/-- One segment of a fenced-code-block document. -/
inductive Seg
  | text (line : String)
  | block (opener : String) (body : List String)
deriving DecidableEq, Repr

/-- The lines a segment contributes to the document. -/
def Seg.lines : Seg → List String
  | .text l => [l]
  | .block opener body => opener :: (body ++ ["```"])

/-- Well-formedness: a text line is not a fence opener; a block's opener
starts with ```` ``` ```` and no body line is the bare closing fence. -/
def Seg.wfb : Seg → Bool
  | .text l => !(pyStartsWith l "```")
  | .block opener body => pyStartsWith opener "```" && body.all fun l => !(l == "```")

/-- The full line sequence of a document. -/
def docLines : List Seg → List String
  | [] => []
  | g :: segs => g.lines ++ docLines segs

/-- Each line of a block body with its trailing newline restored, joined. -/
def joinLines : List String → String
  | [] => ""
  | l :: ls => l ++ "\n" ++ joinLines ls

/-- The bodies of the blocks of a document, in order of appearance. -/
def blockBodies : List Seg → List String
  | [] => []
  | .text _ :: segs => blockBodies segs
  | .block _ body :: segs => joinLines body :: blockBodies segs

/-- The number of blocks in a document. -/
def numBlocks : List Seg → Nat
  | [] => 0
  | .text _ :: segs => numBlocks segs
  | .block _ _ :: segs => numBlocks segs + 1

theorem blockBodies_length (segs : List Seg) :
    (blockBodies segs).length = numBlocks segs := by
  induction segs with
  | nil => rfl
  | cons g segs ih => cases g <;> simp [blockBodies, numBlocks, ih]

theorem strAppend_assoc (a b c : String) : a ++ b ++ c = a ++ (b ++ c) := by
  apply String.ext
  simp [List.append_assoc]

theorem strAppend_empty (a : String) : a ++ "" = a := by
  apply String.ext
  simp

theorem strEmpty_append (a : String) : "" ++ a = a := by
  apply String.ext
  simp

/-! One-step unfolding lemmas for the scanner. -/

theorem extractAux_step_open (line : String) (rest out : List String)
    (h : pyStartsWith line "```" = true) :
    extractCodeBlocksAux (line :: rest) none out
      = extractCodeBlocksAux rest (some "") out := by
  rw [show extractCodeBlocksAux (line :: rest) none out
      = if pyStartsWith line "```" then extractCodeBlocksAux rest (some "") out
        else extractCodeBlocksAux rest none out from rfl, if_pos h]

theorem extractAux_step_text (line : String) (rest out : List String)
    (h : pyStartsWith line "```" = false) :
    extractCodeBlocksAux (line :: rest) none out
      = extractCodeBlocksAux rest none out := by
  rw [show extractCodeBlocksAux (line :: rest) none out
      = if pyStartsWith line "```" then extractCodeBlocksAux rest (some "") out
        else extractCodeBlocksAux rest none out from rfl, h]
  exact if_neg fun hc => Bool.false_ne_true hc

theorem extractAux_step_close (rest out : List String) (cur : String) :
    extractCodeBlocksAux ("```" :: rest) (some cur) out
      = extractCodeBlocksAux rest none (out ++ [cur]) := by
  rw [show extractCodeBlocksAux ("```" :: rest) (some cur) out
      = if ("```" : String) = "```" then extractCodeBlocksAux rest none (out ++ [cur])
        else extractCodeBlocksAux rest (some (cur ++ "```" ++ "\n")) out from rfl,
    if_pos rfl]

theorem extractAux_step_body (line : String) (rest out : List String) (cur : String)
    (h : line ≠ "```") :
    extractCodeBlocksAux (line :: rest) (some cur) out
      = extractCodeBlocksAux rest (some (cur ++ line ++ "\n")) out := by
  rw [show extractCodeBlocksAux (line :: rest) (some cur) out
      = if line = "```" then extractCodeBlocksAux rest none (out ++ [cur])
        else extractCodeBlocksAux rest (some (cur ++ line ++ "\n")) out from rfl,
    if_neg h]

/-- Inside a block whose remaining body lines are `body` (none of them the
closing fence), the scanner consumes `body` and the closing fence, emits the
accumulated text, and continues outside the block. -/
theorem extractAux_inside (body : List String) (rest : List String)
    (cur : String) (out : List String) (hb : ∀ l ∈ body, l ≠ "```") :
    extractCodeBlocksAux (body ++ "```" :: rest) (some cur) out
      = extractCodeBlocksAux rest none (out ++ [cur ++ joinLines body]) := by
  induction body generalizing cur with
  | nil =>
      rw [List.nil_append, extractAux_step_close]
      simp [joinLines, strAppend_empty]
  | cons l body ih =>
      have hl : l ≠ "```" := hb l (List.mem_cons_self l body)
      rw [List.cons_append, extractAux_step_body l _ _ _ hl,
        ih _ fun x hx => hb x (List.mem_cons_of_mem l hx)]
      simp [joinLines, strAppend_assoc]

/-- Scanning the rendering of a well-formed document followed by any
remaining lines appends exactly the document's block bodies to the output
and continues on the remaining lines outside any block. -/
theorem extractAux_doc (segs : List Seg) (rest : List String)
    (out : List String) (hwf : ∀ g ∈ segs, g.wfb = true) :
    extractCodeBlocksAux (docLines segs ++ rest) none out
      = extractCodeBlocksAux rest none (out ++ blockBodies segs) := by
  induction segs generalizing out with
  | nil => simp [docLines, blockBodies]
  | cons g segs ih =>
      cases g with
      | text l =>
          have hl := hwf (.text l) (List.mem_cons_self _ _)
          simp only [Seg.wfb, Bool.not_eq_true'] at hl
          have hshape : docLines (Seg.text l :: segs) ++ rest
              = l :: (docLines segs ++ rest) := by
            simp [docLines, Seg.lines]
          rw [hshape, extractAux_step_text l _ _ hl,
            ih out fun x hx => hwf x (List.mem_cons_of_mem _ hx)]
          simp [blockBodies]
      | block opener body =>
          have hg := hwf (.block opener body) (List.mem_cons_self _ _)
          simp only [Seg.wfb, Bool.and_eq_true, List.all_eq_true] at hg
          obtain ⟨hop, hbody⟩ := hg
          have hb : ∀ x ∈ body, x ≠ "```" := by
            intro x hx
            simpa using hbody x hx
          have hshape : docLines (Seg.block opener body :: segs) ++ rest
              = opener :: (body ++ "```" :: (docLines segs ++ rest)) := by
            simp [docLines, Seg.lines]
          rw [hshape, extractAux_step_open opener _ _ hop,
            extractAux_inside body _ "" out hb,
            ih _ fun x hx => hwf x (List.mem_cons_of_mem _ hx)]
          simp [blockBodies, strEmpty_append]

/-- After an opening fence that is never closed, the scanner consumes every
remaining line without emitting anything. -/
theorem extractAux_noClose (tailLines : List String) (cur : String)
    (out : List String) (h : ∀ l ∈ tailLines, l ≠ "```") :
    extractCodeBlocksAux tailLines (some cur) out = out := by
  induction tailLines generalizing cur with
  | nil => rfl
  | cons l tailLines ih =>
      have hl : l ≠ "```" := h l (List.mem_cons_self _ _)
      rw [extractAux_step_body l _ _ _ hl]
      exact ih _ fun x hx => h x (List.mem_cons_of_mem _ hx)

/-- C1: on an input whose lines form a well-formed document with N fenced
blocks, `extract_code_blocks` returns exactly the N block bodies, in order
of first appearance, each body being its lines with a trailing newline
apiece; with no blocks the result is empty. -/
theorem extract_code_blocks_wellformed (s : String) (segs : List Seg)
    (hwf : ∀ g ∈ segs, g.wfb = true)
    (hs : pySplitLines s = docLines segs) :
    extract_code_blocks s = blockBodies segs ∧
      (extract_code_blocks s).length = numBlocks segs := by
  have h : extract_code_blocks s = blockBodies segs := by
    unfold extract_code_blocks
    rw [hs]
    have := extractAux_doc segs [] [] hwf
    simpa using this
  exact ⟨h, by rw [h, blockBodies_length]⟩

/-- C1 witness: a concrete document with one two-line block. -/
theorem extract_code_blocks_wellformed_witness :
    extract_code_blocks "intro\n```py\nx = 1\ny = 2\n```\noutro"
        = blockBodies [Seg.text "intro", Seg.block "```py" ["x = 1", "y = 2"], Seg.text "outro"] ∧
      (extract_code_blocks "intro\n```py\nx = 1\ny = 2\n```\noutro").length
        = numBlocks [Seg.text "intro", Seg.block "```py" ["x = 1", "y = 2"], Seg.text "outro"] :=
  extract_code_blocks_wellformed _ _ (by decide) (by decide)

/-- C2: a final opening fence with no matching closing fence is silently
dropped: the result is exactly the bodies of the blocks closed before it. -/
theorem extract_code_blocks_unterminated (s : String) (segs : List Seg)
    (opener : String) (tailLines : List String)
    (hwf : ∀ g ∈ segs, g.wfb = true)
    (hop : pyStartsWith opener "```" = true)
    (htail : ∀ l ∈ tailLines, l ≠ "```")
    (hs : pySplitLines s = docLines segs ++ opener :: tailLines) :
    extract_code_blocks s = blockBodies segs := by
  unfold extract_code_blocks
  rw [hs, extractAux_doc segs (opener :: tailLines) [] hwf]
  simp only [extractCodeBlocksAux, hop, if_true]
  exact extractAux_noClose tailLines "" _ htail

/-- C2 witness: the spec's example input yields exactly `["foo\n"]`. -/
theorem extract_code_blocks_unterminated_witness :
    extract_code_blocks "```\nfoo\n```\n```\nbar" = ["foo\n"] :=
  (extract_code_blocks_unterminated "```\nfoo\n```\n```\nbar"
    [Seg.block "```" ["foo"]] "```" ["bar"]
    (by decide) (by decide) (by decide) (by decide)).trans (by decide)

/-! ## The `MeowChat` session model

State is the current model and the conversation history; console printing,
clipboard writes, the console rule and `sys.exit` are modelled as emitted
effects.  A command returns `none` when the Python code would raise an
exception that the chat loop does not catch. -/

/-- Roles of conversation messages. -/
inductive Role
  | system
  | user
  | assistant
deriving DecidableEq, Repr

/-- The `"role"` field as it appears in the message dictionaries. -/
def roleToString : Role → String
  | Role.system => "system"
  | Role.user => "user"
  | Role.assistant => "assistant"

/-- One conversation message: `{"role": ..., "content": ...}`. -/
structure Message where
  role : Role
  content : String
deriving DecidableEq, Repr

/-- The mutable state of a `MeowChat` instance (the OpenAI client and the
console are external collaborators and carry no modelled state). -/
structure MeowChat where
  model : String
  history : List Message
deriving DecidableEq, Repr

/-- Observable side effects of one step. -/
inductive Eff
  | print (s : String)
  | copyClipboard (s : String)
  | rule (s : String)
  | exitProcess (code : Nat)
deriving DecidableEq, Repr

/-- `MEOW_STRING` (module level in `meow.py`). -/
def MEOW_STRING : String :=
  "[bright_red]M[/bright_red][bright_yellow]e[/bright_yellow][bright_green]o[/bright_green][bright_blue]w[/bright_blue]"

/-- `get_system_prompt`, with `datetime.now().strftime("%Y-%m-%d")` passed
in as `today`. -/
def get_system_prompt (today : String) : String :=
  "You are an AI assistant called Meow, you use semi-formal language and are generally quite concise.\n        Your user is an experienced computer programmer.\n\n        The current date is: " ++ today ++ "\n        "

/-- `reset_history`: the conversation becomes the single system message. -/
def reset_history (today : String) (st : MeowChat) : MeowChat :=
  { st with history := [{ role := Role.system, content := get_system_prompt today }] }

/-! ### The command registry

`get_commands` iterates `vars(MeowChat)` in definition order over the
methods whose name starts with `command_`; the `Cmd` type enumerates them
in that order. -/

/-- The `command_*` methods of `MeowChat`, in definition order. -/
inductive Cmd
  | model
  | copy
  | code_copy
  | dump
  | reset
  | quit
  | help
deriving DecidableEq, Repr

/-- `method.split("_")[1:]`: the words of a command method's name. -/
def commandWords : Cmd → List String
  | Cmd.model => ["model"]
  | Cmd.copy => ["copy"]
  | Cmd.code_copy => ["code", "copy"]
  | Cmd.dump => ["dump"]
  | Cmd.reset => ["reset"]
  | Cmd.quit => ["quit"]
  | Cmd.help => ["help"]

/-- `fn.__doc__.strip()` of each command method. -/
def commandDoc : Cmd → String
  | Cmd.model => "Toggle model"
  | Cmd.copy => "Copy the last response to the clipboard"
  | Cmd.code_copy => "Copy the last code block to the clipboard"
  | Cmd.dump => "Dump the conversation to screen raw with no formatting"
  | Cmd.reset => "Start a new chat context"
  | Cmd.quit => "Quit the application"
  | Cmd.help => "Show this help"

/-- Python `sep.join(ws)`. -/
def joinSep (sep : String) : List String → String
  | [] => ""
  | [w] => w
  | w :: ws => w ++ sep ++ joinSep sep ws

/-- Python `s.capitalize()`: first character upper-cased, rest lower-cased. -/
def pyCapitalize (s : String) : String :=
  match s.data with
  | [] => ""
  | c :: cs => ⟨c.toUpper :: cs.map Char.toLower⟩

/-- `"".join(c[0] for c in method.split("_")[1:])`: the short trigger. -/
def shortcutOf (c : Cmd) : String :=
  String.join ((commandWords c).map fun w => ⟨w.data.take 1⟩)

/-- `"_".join(...)`: the long trigger. -/
def longOf (c : Cmd) : String :=
  joinSep "_" (commandWords c)

/-- `" ".join(...).capitalize()`: the display name. -/
def displayNameOf (c : Cmd) : String :=
  pyCapitalize (joinSep " " (commandWords c))

/-- One entry yielded by `get_commands`: trigger, display name, help text
and the command it dispatches to. -/
structure CommandEntry where
  shortcut : String
  name : String
  help : String
  cmd : Cmd
deriving DecidableEq, Repr

/-- The commands in `vars(MeowChat)` definition order. -/
def commandList : List Cmd :=
  [Cmd.model, Cmd.copy, Cmd.code_copy, Cmd.dump, Cmd.reset, Cmd.quit, Cmd.help]

/-- `get_commands(with_long)`: for each command, the short-trigger entry,
followed by the long-trigger entry when `with_long` is set. -/
def get_commands (with_long : Bool) : List CommandEntry :=
  commandList.flatMap fun c =>
    { shortcut := shortcutOf c, name := displayNameOf c, help := commandDoc c, cmd := c } ::
      if with_long then
        [{ shortcut := longOf c, name := displayNameOf c, help := commandDoc c, cmd := c }]
      else []

/-! ### The command actions -/

/-- `command_model`: toggle model.  `MODELS.index` raises `ValueError` when
the current model is not in the list (modelled as `none`); the subscript is
always in range thanks to the modulus, so the `getD` default is
unreachable. -/
def command_model (st : MeowChat) : Option (MeowChat × List Eff) :=
  match MODELS.indexOf? st.model with
  | none => none
  | some i => some ({ st with model := MODELS.getD ((i + 1) % MODELS.length) "" }, [])

/-- `command_copy`: copy the last response to the clipboard.
`history[-1]` raises `IndexError` on an empty history (modelled as
`none`). -/
def command_copy (st : MeowChat) : Option (MeowChat × List Eff) :=
  match st.history.getLast? with
  | none => none
  | some m =>
      some (st, [Eff.copyClipboard m.content, Eff.print "Copied last response to clipboard"])

/-- `command_code_copy`: copy the last code block of the last message. -/
def command_code_copy (st : MeowChat) : Option (MeowChat × List Eff) :=
  match st.history.getLast? with
  | none => none
  | some m =>
      match (extract_code_blocks m.content).getLast? with
      | none => some (st, [Eff.print "No code blocks found in last message"])
      | some b =>
          some (st, [Eff.copyClipboard b, Eff.print "Copied last code block to clipboard"])

/-- `command_dump`: print every message raw, role-tagged. -/
def command_dump (st : MeowChat) : Option (MeowChat × List Eff) :=
  some (st, st.history.map fun m =>
    Eff.print ("<" ++ roleToString m.role ++ ">\n" ++ m.content ++ "\n</" ++ roleToString m.role ++ ">"))

/-- `command_reset`: rule a section break, then reset the history. -/
def command_reset (today : String) (st : MeowChat) : Option (MeowChat × List Eff) :=
  some (reset_history today st, [Eff.rule "Reset"])

/-- `command_quit`: `sys.exit(0)`. -/
def command_quit (st : MeowChat) : Option (MeowChat × List Eff) :=
  some (st, [Eff.exitProcess 0])

/-- `command_help`: print the header and one line per short-trigger entry. -/
def command_help (st : MeowChat) : Option (MeowChat × List Eff) :=
  some (st, Eff.print ("[bold]" ++ MEOW_STRING ++ " commands[/bold]") ::
    (get_commands false).map fun e =>
      Eff.print ("[bold]\\" ++ e.shortcut ++ "[/bold] - " ++ e.name ++ ": " ++ e.help))

/-- Dispatch from a registry entry's command to its bound method. -/
def applyCommand (today : String) : Cmd → MeowChat → Option (MeowChat × List Eff)
  | Cmd.model => command_model
  | Cmd.copy => command_copy
  | Cmd.code_copy => command_code_copy
  | Cmd.dump => command_dump
  | Cmd.reset => command_reset today
  | Cmd.quit => command_quit
  | Cmd.help => command_help

/-- `run_command`: run the first registry entry (long triggers included)
whose trigger equals the input, else report an unknown command. -/
def run_command (today : String) (command : String) (st : MeowChat) :
    Option (MeowChat × List Eff) :=
  match (get_commands true).find? fun e => e.shortcut == command with
  | some e => applyCommand today e.cmd st
  | none => some (st, [Eff.print ("Unknown command: " ++ command)])

/-! ### One iteration of the chat loop -/

/-- The streamed completion: the `delta.content` of each chunk in arrival
order (`none` models a null delta), either running to end-of-stream or cut
short by `KeyboardInterrupt`. -/
inductive StreamResult
  | completed (chunks : List (Option String))
  | interrupted (chunksBefore : List (Option String))

/-- The `aggregated_result` accumulation: falsy deltas (`None`, `""`) are
skipped by `if delta_content:`. -/
def aggregate (chunks : List (Option String)) : String :=
  chunks.foldl
    (fun acc c =>
      match c with
      | some d => if d = "" then acc else acc ++ d
      | none => acc)
    ""

/-- How one loop iteration ends: the loop continues, or an exception other
than `KeyboardInterrupt` escapes the `try` (crashing the session). -/
inductive ChatOutcome
  | ok (st : MeowChat) (effs : List Eff)
  | uncaught (st : MeowChat) (effs : List Eff)
deriving DecidableEq, Repr

/-- One iteration of the `while True` body of `MeowChat.chat`, given the
text the prompt returned and the behaviour of the completion stream.  On
empty stripped input, `user_message[0]` raises `IndexError`, which the
`except KeyboardInterrupt` clause does not catch. -/
def chat_iteration (today : String) (st : MeowChat) (rawInput : String)
    (stream : StreamResult) : ChatOutcome :=
  let user_message := pyStrip rawInput
  match pyFirst user_message with
  | none => ChatOutcome.uncaught st []
  | some c =>
      if c = '\\' then
        match run_command today (pyDropFirst user_message) st with
        | some (st', effs) => ChatOutcome.ok st' effs
        | none => ChatOutcome.uncaught st []
      else
        let st₁ := { st with history := st.history ++ [{ role := Role.user, content := user_message }] }
        match stream with
        | StreamResult.completed chunks =>
            ChatOutcome.ok
              { st₁ with history := st₁.history ++ [{ role := Role.assistant, content := aggregate chunks }] }
              [Eff.print ""]
        | StreamResult.interrupted _ =>
            ChatOutcome.ok st₁ [Eff.print "[bright_red]Interrupted[/bright_red]"]

/-! ## Helper lemmas on the session model -/

/-- The state an iteration outcome carries. -/
def outcomeState : ChatOutcome → MeowChat
  | ChatOutcome.ok st _ => st
  | ChatOutcome.uncaught st _ => st

/-- The first element of the conversation is a system message holding the
system prompt (for the date current when it was produced). -/
def headIsSystemPrompt (st : MeowChat) : Prop :=
  ∃ day rest, st.history = { role := Role.system, content := get_system_prompt day } :: rest

theorem applyCommand_history (today : String) (c : Cmd) (st st' : MeowChat)
    (effs : List Eff) (happ : applyCommand today c st = some (st', effs)) :
    st'.history = st.history ∨
      st'.history = [{ role := Role.system, content := get_system_prompt today }] := by
  cases c
  case model =>
    unfold applyCommand command_model at happ
    cases hidx : MODELS.indexOf? st.model with
    | none => simp [hidx] at happ
    | some i =>
        simp only [hidx, Option.some.injEq, Prod.mk.injEq] at happ
        left
        rw [← happ.1]
  case copy =>
    unfold applyCommand command_copy at happ
    cases hlast : st.history.getLast? with
    | none => simp [hlast] at happ
    | some m =>
        simp only [hlast, Option.some.injEq, Prod.mk.injEq] at happ
        left
        rw [← happ.1]
  case code_copy =>
    unfold applyCommand command_code_copy at happ
    cases hlast : st.history.getLast? with
    | none => simp [hlast] at happ
    | some m =>
        cases hcb : (extract_code_blocks m.content).getLast? with
        | none =>
            simp only [hlast, hcb, Option.some.injEq, Prod.mk.injEq] at happ
            left
            rw [← happ.1]
        | some b =>
            simp only [hlast, hcb, Option.some.injEq, Prod.mk.injEq] at happ
            left
            rw [← happ.1]
  case dump =>
    unfold applyCommand command_dump at happ
    simp only [Option.some.injEq, Prod.mk.injEq] at happ
    left
    rw [← happ.1]
  case reset =>
    unfold applyCommand command_reset at happ
    simp only [Option.some.injEq, Prod.mk.injEq] at happ
    right
    rw [← happ.1]
    rfl
  case quit =>
    unfold applyCommand command_quit at happ
    simp only [Option.some.injEq, Prod.mk.injEq] at happ
    left
    rw [← happ.1]
  case help =>
    unfold applyCommand command_help at happ
    simp only [Option.some.injEq, Prod.mk.injEq] at happ
    left
    rw [← happ.1]

theorem run_command_history (today command : String) (st st' : MeowChat)
    (effs : List Eff) (h : run_command today command st = some (st', effs)) :
    st'.history = st.history ∨
      st'.history = [{ role := Role.system, content := get_system_prompt today }] := by
  unfold run_command at h
  split at h
  · exact applyCommand_history today _ st st' effs h
  · simp only [Option.some.injEq, Prod.mk.injEq] at h
    left
    rw [← h.1]

theorem chat_iteration_state (today : String) (st : MeowChat) (rawInput : String)
    (stream : StreamResult) :
    (∃ ms, (outcomeState (chat_iteration today st rawInput stream)).history
        = st.history ++ ms) ∨
      (outcomeState (chat_iteration today st rawInput stream)).history
        = [{ role := Role.system, content := get_system_prompt today }] := by
  cases hfst : pyFirst (pyStrip rawInput) with
  | none =>
      left
      refine ⟨[], ?_⟩
      simp [chat_iteration, hfst, outcomeState]
  | some c =>
      by_cases hc : c = '\\'
      · subst hc
        simp only [chat_iteration, hfst, if_pos rfl]
        cases hrc : run_command today (pyDropFirst (pyStrip rawInput)) st with
        | none =>
            left
            refine ⟨[], ?_⟩
            simp [outcomeState]
        | some p =>
            obtain ⟨st', effs⟩ := p
            simp only [outcomeState]
            rcases run_command_history today _ st st' effs hrc with hl | hr
            · exact Or.inl ⟨[], by simp [outcomeState, hl]⟩
            · exact Or.inr (by simp [outcomeState, hr])
      · cases stream with
        | completed chunks =>
            left
            refine ⟨[{ role := Role.user, content := pyStrip rawInput },
              { role := Role.assistant, content := aggregate chunks }], ?_⟩
            simp [chat_iteration, hfst, if_neg hc, outcomeState]
        | interrupted before =>
            left
            refine ⟨[{ role := Role.user, content := pyStrip rawInput }], ?_⟩
            simp [chat_iteration, hfst, if_neg hc, outcomeState]

theorem strFoldl_shift (l : List String) (a : String) :
    l.foldl (· ++ ·) a = a ++ l.foldl (· ++ ·) "" := by
  induction l generalizing a with
  | nil => exact (strAppend_empty a).symm
  | cons b l ih =>
      simp only [List.foldl_cons, strEmpty_append]
      rw [ih (a ++ b), ih b, strAppend_assoc]

theorem strJoin_cons (a : String) (l : List String) :
    String.join (a :: l) = a ++ String.join l := by
  show (a :: l).foldl (fun r s => r ++ s) "" = a ++ String.join l
  rw [List.foldl_cons, strEmpty_append]
  exact strFoldl_shift l a

/-- The streamed accumulation equals the plain concatenation of the
non-null fragments in arrival order (Python's `if delta_content:` skips
only `None` and `""`, which contribute nothing to a concatenation). -/
theorem aggregate_eq_join (chunks : List (Option String)) :
    aggregate chunks = String.join (chunks.filterMap id) := by
  suffices h : ∀ (cs : List (Option String)) (acc : String),
      cs.foldl
          (fun acc c =>
            match c with
            | some d => if d = "" then acc else acc ++ d
            | none => acc)
          acc
        = acc ++ String.join (cs.filterMap id) by
    rw [aggregate, h, strEmpty_append]
  intro cs
  induction cs with
  | nil =>
      intro acc
      rw [List.foldl_nil, List.filterMap_nil, String.join, List.foldl_nil, strAppend_empty]
  | cons co cs ih =>
      intro acc
      cases co with
      | none => simp only [List.foldl_cons, List.filterMap_cons, id, ih]
      | some d =>
          by_cases hd : d = ""
          · subst hd
            simp only [List.foldl_cons, List.filterMap_cons, id, if_true]
            rw [ih, strJoin_cons, strEmpty_append]
          · simp only [List.foldl_cons, List.filterMap_cons, id]
            rw [if_neg hd, ih, strJoin_cons]
            exact strAppend_assoc acc d _

/-! ## The claims -/

/-- C3 (code bug): the spec requires that an empty trimmed input be a
no-op re-prompting iteration, with the escape-prefix check never indexing
an empty string.  In the code, `user_message[0]` is evaluated
unconditionally after `.strip()`, so an empty (or whitespace-only)
submission raises `IndexError`, which `except KeyboardInterrupt` does not
catch: the iteration ends with an uncaught exception (crashing the
session) instead of re-prompting. -/
theorem chat_iteration_empty_input (today : String) (st : MeowChat)
    (stream : StreamResult) :
    chat_iteration today st "" stream = ChatOutcome.uncaught st [] ∧
      chat_iteration today st "   " stream = ChatOutcome.uncaught st [] :=
  ⟨rfl, rfl⟩

/-- C4: dispatch is total: an input matching no registered trigger (short
or long) reports an unknown command and changes nothing — the state (model
and conversation included) is returned unchanged, no exception escapes and
no exit effect is emitted. -/
theorem run_command_unknown (today command : String) (st : MeowChat)
    (h : ∀ e ∈ get_commands true, e.shortcut ≠ command) :
    run_command today command st
      = some (st, [Eff.print ("Unknown command: " ++ command)]) := by
  unfold run_command
  have hf : (get_commands true).find? (fun e => e.shortcut == command) = none := by
    apply List.find?_eq_none.mpr
    intro e he
    simpa using h e he
  rw [hf]

/-- C4 witness: the unregistered trigger `xyz` on a concrete state. -/
theorem run_command_unknown_witness :
    run_command "2026-10-12" "xyz" ⟨"gpt-4o", []⟩
      = some (⟨"gpt-4o", []⟩, [Eff.print ("Unknown command: " ++ "xyz")]) :=
  run_command_unknown "2026-10-12" "xyz" ⟨"gpt-4o", []⟩ (by decide)

/-- One model switch, keeping only the resulting state. -/
def stepModel (st : MeowChat) : Option MeowChat :=
  (command_model st).map Prod.fst

/-- `n` successive invocations of the switch-model command. -/
def iterModel : Nat → MeowChat → Option MeowChat
  | 0, st => some st
  | n + 1, st => (stepModel st).bind (iterModel n)

/-- C5: with the current model at index `i` of the fixed list, one
invocation of the switch-model command succeeds and moves the model to
index `(i + 1) % length` (leaving the history untouched), and a number of
invocations equal to the list length returns the state to its original
model. -/
theorem command_model_cycles (st : MeowChat) (i : Nat)
    (hi : i < MODELS.length) (hm : st.model = MODELS.getD i "") :
    (∃ st₁ effs, command_model st = some (st₁, effs) ∧
        st₁.model = MODELS.getD ((i + 1) % MODELS.length) "" ∧
        st₁.history = st.history) ∧
    (∃ st₂, iterModel MODELS.length st = some st₂ ∧
        st₂.model = st.model ∧ st₂.history = st.history) := by
  obtain ⟨model, history⟩ := st
  have hi₂ : i < 2 := by unfold MODELS at hi; simpa using hi
  clear hi
  change model = MODELS.getD i "" at hm
  interval_cases i
  · subst hm
    exact ⟨⟨_, _, rfl, rfl, rfl⟩, _, rfl, rfl, rfl⟩
  · subst hm
    exact ⟨⟨_, _, rfl, rfl, rfl⟩, _, rfl, rfl, rfl⟩

/-- C5 witness: a session on `gpt-4o` (index 0). -/
theorem command_model_cycles_witness :
    (∃ st₁ effs, command_model ⟨"gpt-4o", []⟩ = some (st₁, effs) ∧
        st₁.model = MODELS.getD ((0 + 1) % MODELS.length) "" ∧
        st₁.history = (⟨"gpt-4o", []⟩ : MeowChat).history) ∧
    (∃ st₂, iterModel MODELS.length ⟨"gpt-4o", []⟩ = some st₂ ∧
        st₂.model = (⟨"gpt-4o", []⟩ : MeowChat).model ∧
        st₂.history = (⟨"gpt-4o", []⟩ : MeowChat).history) :=
  command_model_cycles ⟨"gpt-4o", []⟩ 0 (by decide) (by decide)

/-- C6: every invocation of the reset command succeeds, leaving a
conversation of exactly one message whose role is `system` (holding the
system prompt for the current date), and resetting again from that state
gives the same structure for any later date. -/
theorem command_reset_structure (today : String) (st : MeowChat) :
    ∃ st₁ effs, command_reset today st = some (st₁, effs) ∧
      st₁.history = [{ role := Role.system, content := get_system_prompt today }] ∧
      st₁.history.length = 1 ∧
      st₁.history.map Message.role = [Role.system] ∧
      ∀ today₂, ∃ st₂ effs₂, command_reset today₂ st₁ = some (st₂, effs₂) ∧
        st₂.history.length = 1 ∧ st₂.history.map Message.role = [Role.system] :=
  ⟨_, _, rfl, rfl, rfl, rfl, fun _ => ⟨_, _, rfl, rfl, rfl⟩⟩

/-- C7: the head-is-system-prompt invariant is preserved by every
operation: (re)initialising the history, appending any message (user or
assistant), running any command string through the dispatcher, and one full
iteration of the chat loop on any input and stream behaviour (for both the
normal and the uncaught-exception outcome). -/
theorem meow_system_head_invariant (today : String) (st : MeowChat)
    (h : headIsSystemPrompt st) :
    headIsSystemPrompt (reset_history today st) ∧
    (∀ msg, headIsSystemPrompt { st with history := st.history ++ [msg] }) ∧
    (∀ command st' effs, run_command today command st = some (st', effs) →
      headIsSystemPrompt st') ∧
    (∀ rawInput stream,
      headIsSystemPrompt (outcomeState (chat_iteration today st rawInput stream))) := by
  obtain ⟨day, rest, hh⟩ := h
  refine ⟨⟨today, [], rfl⟩, ?_, ?_, ?_⟩
  · intro msg
    exact ⟨day, rest ++ [msg], by simp only [hh, List.cons_append]⟩
  · intro command st' effs hrc
    rcases run_command_history today command st st' effs hrc with hl | hr
    · exact ⟨day, rest, hl.trans hh⟩
    · exact ⟨today, [], hr⟩
  · intro rawInput stream
    rcases chat_iteration_state today st rawInput stream with ⟨ms, hm⟩ | hr
    · exact ⟨day, rest ++ ms, by rw [hm, hh, List.cons_append]⟩
    · exact ⟨today, [], hr⟩

/-- C7 witness: a freshly initialised session satisfies the invariant and
every operation preserves it there. -/
theorem meow_system_head_invariant_witness :
    headIsSystemPrompt (reset_history "2026-10-12" ⟨"gpt-4o", []⟩) ∧
    (headIsSystemPrompt
        (reset_history "2026-10-12" (reset_history "2026-10-12" ⟨"gpt-4o", []⟩)) ∧
      (∀ msg, headIsSystemPrompt
        { reset_history "2026-10-12" ⟨"gpt-4o", []⟩ with
            history := (reset_history "2026-10-12" ⟨"gpt-4o", []⟩).history ++ [msg] }) ∧
      (∀ command st' effs,
        run_command "2026-10-12" command (reset_history "2026-10-12" ⟨"gpt-4o", []⟩)
            = some (st', effs) →
        headIsSystemPrompt st') ∧
      (∀ rawInput stream,
        headIsSystemPrompt (outcomeState
          (chat_iteration "2026-10-12" (reset_history "2026-10-12" ⟨"gpt-4o", []⟩)
            rawInput stream)))) :=
  ⟨⟨"2026-10-12", [], rfl⟩,
    meow_system_head_invariant "2026-10-12" (reset_history "2026-10-12" ⟨"gpt-4o", []⟩)
      ⟨"2026-10-12", [], rfl⟩⟩

/-- C8: on a non-command input and a stream that terminates, one iteration
appends exactly the user message (the stripped input) followed by one
assistant message whose content is the concatenation of the stream's text
fragments in arrival order, leaving everything before them unchanged, and
the loop continues. -/
theorem chat_iteration_appends (today : String) (st : MeowChat)
    (rawInput : String) (chunks : List (Option String)) (c : Char)
    (hc : pyFirst (pyStrip rawInput) = some c) (hesc : c ≠ '\\') :
    chat_iteration today st rawInput (StreamResult.completed chunks)
      = ChatOutcome.ok
          { st with history := st.history
              ++ [{ role := Role.user, content := pyStrip rawInput },
                  { role := Role.assistant, content := aggregate chunks }] }
          [Eff.print ""] ∧
      aggregate chunks = String.join (chunks.filterMap id) := by
  constructor
  · simp only [chat_iteration, hc]
    rw [if_neg hesc]
    simp [List.append_assoc]
  · exact aggregate_eq_join chunks

/-- C8 witness: input `hello` with the two-fragment stream `Hi`, ` there`. -/
theorem chat_iteration_appends_witness :
    chat_iteration "2026-10-12" ⟨"gpt-4o", []⟩ "hello"
        (StreamResult.completed [some "Hi", some " there"])
      = ChatOutcome.ok
          { (⟨"gpt-4o", []⟩ : MeowChat) with
              history := (⟨"gpt-4o", []⟩ : MeowChat).history
                ++ [{ role := Role.user, content := pyStrip "hello" },
                    { role := Role.assistant,
                      content := aggregate [some "Hi", some " there"] }] }
          [Eff.print ""] ∧
      aggregate [some "Hi", some " there"]
        = String.join ([some "Hi", some " there"].filterMap id) :=
  chat_iteration_appends "2026-10-12" ⟨"gpt-4o", []⟩ "hello"
    [some "Hi", some " there"] 'h' (by decide) (by decide)

/-- C9: a `KeyboardInterrupt` during streaming leaves the history exactly
as it was after the user message was appended (no partial assistant
message), reports the interrupted notice, and the loop continues. -/
theorem chat_iteration_interrupted (today : String) (st : MeowChat)
    (rawInput : String) (chunksBefore : List (Option String)) (c : Char)
    (hc : pyFirst (pyStrip rawInput) = some c) (hesc : c ≠ '\\') :
    chat_iteration today st rawInput (StreamResult.interrupted chunksBefore)
      = ChatOutcome.ok
          { st with history := st.history
              ++ [{ role := Role.user, content := pyStrip rawInput }] }
          [Eff.print "[bright_red]Interrupted[/bright_red]"] := by
  simp only [chat_iteration, hc]
  rw [if_neg hesc]

/-- C9 witness: input `hello` interrupted after the fragment `Hi`. -/
theorem chat_iteration_interrupted_witness :
    chat_iteration "2026-10-12" ⟨"gpt-4o", []⟩ "hello"
        (StreamResult.interrupted [some "Hi"])
      = ChatOutcome.ok
          { (⟨"gpt-4o", []⟩ : MeowChat) with
              history := (⟨"gpt-4o", []⟩ : MeowChat).history
                ++ [{ role := Role.user, content := pyStrip "hello" }] }
          [Eff.print "[bright_red]Interrupted[/bright_red]"] :=
  chat_iteration_interrupted "2026-10-12" ⟨"gpt-4o", []⟩ "hello"
    [some "Hi"] 'h' (by decide) (by decide)

/-- C10: the derived triggers of the seven registered commands — the seven
initial-based short aliases and the seven underscore-joined long aliases —
are pairwise distinct, entries with equal triggers are identical, and the
dispatcher's linear search resolves every registered trigger to exactly its
own entry, so dispatch is deterministic. -/
theorem get_commands_triggers_deterministic :
    ((get_commands true).map CommandEntry.shortcut).Nodup ∧
    (∀ e₁ ∈ get_commands true, ∀ e₂ ∈ get_commands true,
      e₁.shortcut = e₂.shortcut → e₁ = e₂) ∧
    ∀ e ∈ get_commands true,
      (get_commands true).find? (fun x => x.shortcut == e.shortcut) = some e := by
  decide
